import Mathlib

/-!
# Verification of the address-book core of `src/main.py`

Shallow embedding of the validated record model of the repository:
the `Phone`/`Birthday` field setters, `Record`, `AddressBook` (an
insertion-ordered map from name to record, as a Python `dict`),
substring search, the birthday-distance computation, and the JSON
save/load round trip.  Python `ValueError`s are modelled by the
inductive `PyError`; the distinct raise sites of the source keep
distinct constructors.  `datetime.date` is modelled by `Date`
(proleptic Gregorian calendar, years 1..9999, with `toOrdinal` giving
the day number used for date subtraction).  The JSON encode/decode of
the list of items produced by `AddressBook.save` is treated as the
identity transport on that list (the payload is only strings, string
lists and null, on which `json.dump`/`json.load` round-trip exactly),
so `save` returns the item list and `load` consumes one.
-/

set_option maxHeartbeats 1600000

/-- Python `ValueError`s raised by the program, one constructor per
kind of raise site: the two field-validation raises, the two
"Phone number does not exist" raises, and the `ValueError`s raised
inside the `datetime` library (bad `date` construction / `strptime`
mismatch). Each carries the message text of the source. -/
inductive PyError where
  | validationError (msg : String)
  | notFoundError (msg : String)
  | dateError (msg : String)
deriving DecidableEq

/-! ## Date model (Python `datetime.date`) -/

/-- Gregorian leap-year rule, as implemented by `datetime`. -/
def isLeap (y : Nat) : Bool := (y % 4 == 0 && y % 100 != 0) || (y % 400 == 0)

/-- 1 in a leap year, 0 otherwise. -/
def leapN (y : Nat) : Nat := if isLeap y then 1 else 0

/-- Length of month `m` of year `y`. -/
def daysInMonth (y m : Nat) : Nat :=
  if m = 2 then 28 + leapN y
  else if m = 4 ∨ m = 6 ∨ m = 9 ∨ m = 11 then 30
  else 31

/-- A calendar date as the `year`/`month`/`day` triple of
`datetime.date`. -/
structure Date where
  year : Nat
  month : Nat
  day : Nat
deriving DecidableEq

/-- The states `datetime.date` can actually hold: year 1..9999
(`MINYEAR`..`MAXYEAR`), month 1..12, day 1..length of the month. -/
def Date.valid (d : Date) : Bool :=
  decide (1 ≤ d.year) && decide (d.year ≤ 9999) &&
  decide (1 ≤ d.month) && decide (d.month ≤ 12) &&
  decide (1 ≤ d.day) && decide (d.day ≤ daysInMonth d.year d.month)

/-- Days in year `y` before the first day of month `m` (cumulative
month lengths). -/
def daysBeforeMonth (y m : Nat) : Nat :=
  match m with
  | 2 => 31
  | 3 => 59 + leapN y
  | 4 => 90 + leapN y
  | 5 => 120 + leapN y
  | 6 => 151 + leapN y
  | 7 => 181 + leapN y
  | 8 => 212 + leapN y
  | 9 => 243 + leapN y
  | 10 => 273 + leapN y
  | 11 => 304 + leapN y
  | 12 => 334 + leapN y
  | _ => 0

/-- Days before January 1 of year `y` in the proleptic Gregorian
calendar (as in `datetime.date.toordinal`). -/
def daysBeforeYear (y : Nat) : Nat :=
  365 * (y - 1) + (y - 1) / 4 + (y - 1) / 400 - (y - 1) / 100

/-- `datetime.date.toordinal`: day number with day 1 = January 1 of
year 1; `d2 - d1` in days is `d2.toOrdinal - d1.toOrdinal`. -/
def Date.toOrdinal (d : Date) : Nat :=
  daysBeforeYear d.year + daysBeforeMonth d.year d.month + d.day

/-- `datetime.date` comparison `a < b` (lexicographic on year, month,
day). -/
def Date.lt (a b : Date) : Bool :=
  decide (a.year < b.year) ||
  (a.year == b.year &&
    (decide (a.month < b.month) ||
      (a.month == b.month && decide (a.day < b.day))))

/-- `d.replace(year := y)`: rebuilds the date with the same month and
day; `datetime` validates the result and raises `ValueError` for an
impossible date (for this program: February 29 of a non-leap target
year) or an out-of-range year. -/
def Date.replaceYear (d : Date) (y : Nat) : Except PyError Date :=
  if 1 ≤ y ∧ y ≤ 9999 ∧ d.day ≤ daysInMonth y d.month then
    Except.ok ⟨y, d.month, d.day⟩
  else
    Except.error (PyError.dateError "day is out of range for month")

/-! ## String helpers (Python `str` operations on `List Char`) -/

/-- Python `needle in hay` substring test. -/
def strIn : List Char → List Char → Bool
  | needle, [] => needle.isEmpty
  | needle, c :: rest => needle.isPrefixOf (c :: rest) || strIn needle rest

/-- Python `str.lower()` (restricted to the ASCII range used by the
program). -/
def pyLower (cs : List Char) : List Char :=
  cs.map (fun c => if decide ('A' ≤ c) && decide (c ≤ 'Z') then Char.ofNat (c.toNat + 32) else c)

/-- Python `str.isdigit()`: non-empty and all digit characters. -/
def pyIsdigit (cs : List Char) : Bool := !cs.isEmpty && cs.all Char.isDigit

/-- Python `s.split('.')`. -/
def splitDots : List Char → List (List Char)
  | [] => [[]]
  | c :: rest =>
    if c = '.' then [] :: splitDots rest
    else
      match splitDots rest with
      | [] => [[c]]
      | g :: gs => (c :: g) :: gs

/-- Numeric value of a digit string. -/
def digitsVal (cs : List Char) : Nat :=
  cs.foldl (fun acc c => acc * 10 + (c.toNat - 48)) 0

/-- The `%d` pattern also admits a space-padded single digit
(`" 5"`); normalize that case to the bare digit. -/
def stripLeadSpace (cs : List Char) : List Char :=
  match cs with
  | [' ', c] => [c]
  | _ => cs

/-- `datetime.strptime(s, "%d.%m.%Y")` followed by `.date()`: the
format compiles to the regular expression
`(3[0-1]|[1-2]\d|0[1-9]|[1-9]| [1-9]) '.' (1[0-2]|0[1-9]|[1-9]) '.'
\d\d\d\d` matched against the whole string, and `datetime` then
range-checks the triple as a calendar date (day against the length of
the month in that year, year in 1..9999). Returns the parsed date, or
`none` when strptime raises. -/
def parseDMY (s : String) : Option Date :=
  match splitDots s.data with
  | [ds, ms, ys] =>
    let dsn := stripLeadSpace ds
    let d := digitsVal dsn
    let m := digitsVal ms
    let y := digitsVal ys
    if (!dsn.isEmpty && decide (dsn.length ≤ 2) && dsn.all Char.isDigit &&
        decide (1 ≤ d) && decide (d ≤ 31) &&
        (!ms.isEmpty && decide (ms.length ≤ 2) && ms.all Char.isDigit) &&
        decide (1 ≤ m) && decide (m ≤ 12) &&
        (decide (ys.length = 4) && ys.all Char.isDigit) &&
        decide (d ≤ daysInMonth y m) && decide (1 ≤ y) && decide (y ≤ 9999)) then
      some ⟨y, m, d⟩
    else none
  | _ => none

/-! ## Fields (`Phone`, `Birthday`) -/

/-- The Phone setter's acceptance condition:
`new_value.isdigit() and len(new_value) == 10`. -/
def phoneValid (s : String) : Bool := pyIsdigit s.data && s.length == 10

/-- Message of the Phone validation raise. -/
def phoneErrMsg : String := "Phone number must be 10 digits and contain only numbers"

/-- Message of the Birthday validation raise. -/
def bdayErrMsg : String := "Invalid birthday format. Please use DD.MM.YYYY"

/-- `Phone.__init__`: runs the setter on a fresh object; an invalid
value never produces a live `Phone`. -/
def Phone.mk? (s : String) : Except PyError String :=
  if phoneValid s then Except.ok s
  else Except.error (PyError.validationError phoneErrMsg)

/-- The `Phone.value` setter as a state transition: raises (returning
the prior value unchanged) before any assignment when the new value is
invalid. -/
def Phone.set (cur newV : String) : String × Option PyError :=
  if phoneValid newV then (newV, none)
  else (cur, some (PyError.validationError phoneErrMsg))

/-- The Birthday setter's acceptance condition: `None`, or a string
`strptime` parses under `"%d.%m.%Y"`. -/
def birthdayOk (v : Option String) : Bool :=
  match v with
  | none => true
  | some s => (parseDMY s).isSome

/-- `Birthday.__init__`. -/
def Birthday.mk? (v : Option String) : Except PyError (Option String) :=
  if birthdayOk v then Except.ok v
  else Except.error (PyError.validationError bdayErrMsg)

/-- The `Birthday.value` setter as a state transition. -/
def Birthday.set (cur newV : Option String) : Option String × Option PyError :=
  if birthdayOk newV then (newV, none)
  else (cur, some (PyError.validationError bdayErrMsg))

/-- `Birthday.days_to_birthday`, with `datetime.now().date()` passed
explicitly as `today`: re-parses the stored string, rebuilds the date
in `today`'s year (a raising step for Feb 29 in a non-leap year),
rolls to next year when that anniversary is strictly before `today`,
and returns the day difference. -/
def days_to_birthday (value : Option String) (today : Date) : Except PyError (Option Int) :=
  match value with
  | none => Except.ok none
  | some s =>
    match parseDMY s with
    | none => Except.error (PyError.dateError "time data does not match format %d.%m.%Y")
    | some bd =>
      match bd.replaceYear today.year with
      | Except.error e => Except.error e
      | Except.ok b1 =>
        if Date.lt b1 today then
          match b1.replaceYear (today.year + 1) with
          | Except.error e => Except.error e
          | Except.ok b2 =>
            Except.ok (some ((b2.toOrdinal : Int) - (today.toOrdinal : Int)))
        else
          Except.ok (some ((b1.toOrdinal : Int) - (today.toOrdinal : Int)))

/-! ## Record -/

/-- A `Record`: the `Name` field's text (the `Name` class adds no
validation over `Field`), the `.value` strings of the `Phone` objects
in `self.phones` (insertion order), and the `Birthday` field's value
(`None` or the stored date string). -/
structure Record where
  name : String
  phones : List String
  birthday : Option String
deriving DecidableEq

/-- `Record.__init__(name, birthday)`: wraps the name unchecked and
constructs the `Birthday` field (which validates); phones start empty. -/
def Record.mk? (name : String) (birthday : Option String) : Except PyError Record :=
  match Birthday.mk? birthday with
  | Except.error e => Except.error e
  | Except.ok b => Except.ok ⟨name, [], b⟩

/-- `Record.add_phone`: constructs `Phone(phone)` (raising before any
list change on invalid input) and appends it. -/
def Record.add_phone (r : Record) (p : String) : Record × Option PyError :=
  match Phone.mk? p with
  | Except.ok v => ({ r with phones := r.phones ++ [v] }, none)
  | Except.error e => (r, some e)

/-- Message of the not-found raises of `edit_phone`/`remove_phone`. -/
def phoneNotFoundMsg : String := "Phone number does not exist"

/-- The loop of `Record.edit_phone` over the phone list: replace the
first entry equal to `old_phone` by a freshly validated
`Phone(new_phone)`; the `for`/`else` raises not-found when no entry
matches. -/
def editPhoneList : List String → String → String → Except PyError (List String)
  | [], _, _ => Except.error (PyError.notFoundError phoneNotFoundMsg)
  | p :: ps, oldP, newP =>
    if p == oldP then
      match Phone.mk? newP with
      | Except.ok v => Except.ok (v :: ps)
      | Except.error e => Except.error e
    else
      match editPhoneList ps oldP newP with
      | Except.ok ps2 => Except.ok (p :: ps2)
      | Except.error e => Except.error e

/-- `Record.edit_phone` as a state transition on the record. -/
def Record.edit_phone (r : Record) (oldP newP : String) : Record × Option PyError :=
  match editPhoneList r.phones oldP newP with
  | Except.ok ps => ({ r with phones := ps }, none)
  | Except.error e => (r, some e)

/-- A record whose fields all satisfy their rules (every state a
`Record` built through the constructors can be in). -/
def recordValid (r : Record) : Bool :=
  r.phones.all phoneValid && birthdayOk r.birthday

/-! ## AddressBook -/

/-- The book as `self.data`: a Python dict from name to record, i.e.
an insertion-ordered list of records with pairwise-distinct names. -/
def NamesUnique (book : List Record) : Prop :=
  book.Pairwise (fun a b => a.name ≠ b.name)

/-- Whether the dict has a record under key `n`. -/
def hasName (book : List Record) (n : String) : Bool :=
  book.any (fun r => r.name == n)

namespace AddressBook

/-- The effect of a dict assignment on an entry of the value list:
the record stored under the assigned key is replaced in place. -/
def replaceBy (r : Record) (x : Record) : Record :=
  if x.name == r.name then r else x

/-- `AddressBook.add_record`: `self.data[record.name.value] = record`;
a dict assignment replaces in place under an existing key and appends
under a fresh one. -/
def add_record (book : List Record) (r : Record) : List Record :=
  if hasName book r.name then
    book.map (replaceBy r)
  else
    book ++ [r]

/-- `AddressBook.find`: `self.data.get(name)`. -/
def find : List Record → String → Option Record
  | [], _ => none
  | r :: rest, n => if r.name == n then some r else find rest n

/-- The name-match test of `AddressBook.search`:
`query.lower() in record.name.value.lower()`. -/
def nameMatches (r : Record) (q : String) : Bool :=
  strIn (pyLower q.data) (pyLower r.name.data)

/-- The phone-match test of `AddressBook.search`: some phone value
contains `query` (the inner loop appends once and breaks). -/
def phoneMatches (r : Record) (q : String) : Bool :=
  r.phones.any (fun p => strIn q.data p.data)

/-- `AddressBook.search`: one pass over the dict values; a record is
appended when its name matches, and appended again when any of its
phones matches. -/
def search (book : List Record) (q : String) : List Record :=
  match book with
  | [] => []
  | r :: rest =>
    ((if nameMatches r q then [r] else []) ++
     (if phoneMatches r q then [r] else [])) ++ search rest q

/-- One element of the JSON array written by `AddressBook.save`:
`{'name': ..., 'birthday': ..., 'phones': [...]}`. -/
structure Item where
  name : String
  birthday : Option String
  phones : List String
deriving DecidableEq

/-- `AddressBook.save`: serializes each record of the dict, in order,
to its item. -/
def save (book : List Record) : List Item :=
  book.map (fun r => ⟨r.name, r.birthday, r.phones⟩)

/-- The `for phone in phones: record.add_phone(phone)` loop of
`load`: stops at the first raising phone. -/
def addPhones : Record → List String → Record × Option PyError
  | r, [] => (r, none)
  | r, p :: ps =>
    match Record.add_phone r p with
    | (r2, none) => addPhones r2 ps
    | (r2, some e) => (r2, some e)

/-- The item loop of `AddressBook.load` over the freshly emptied
dict: rebuild each record (re-validating birthday and phones) and
`add_record` it; a raise stops the loop with the records added so
far. -/
def loadLoop : List Record → List Item → List Record × Option PyError
  | book, [] => (book, none)
  | book, it :: rest =>
    match Record.mk? it.name it.birthday with
    | Except.error e => (book, some e)
    | Except.ok r0 =>
      match addPhones r0 it.phones with
      | (_, some e) => (book, some e)
      | (r, none) => loadLoop (add_record book r) rest

/-- `AddressBook.load`: `self.data = {}` discards the prior contents
before the item loop runs; an exception in the loop leaves the book
holding the records rebuilt before it. -/
def load (_book : List Record) (items : List Item) : List Record × Option PyError :=
  loadLoop [] items

end AddressBook

/-! ## Spec-side definitions for refinement-style claims -/

/-- Modelled from the spec (§4.2, §8): the anniversary date used by
the birthday-distance claim — the stored month/day in `today`'s year,
or in the next year when that date is strictly before `today`.
Stated here to compare the code's `days_to_birthday` against it. -/
def specNextAnniversary (bd today : Date) : Date :=
  if Date.lt ⟨today.year, bd.month, bd.day⟩ today then
    ⟨today.year + 1, bd.month, bd.day⟩
  else
    ⟨today.year, bd.month, bd.day⟩

/-- Each record of the book listed twice in order; `search` output is
a subsequence of this (order formalization for the search claim). -/
def dupEach : List Record → List Record
  | [] => []
  | x :: t => x :: x :: dupEach t

/-- The record an item denotes when every field of it re-validates. -/
def recordOfItem (it : AddressBook.Item) : Record := ⟨it.name, it.phones, it.birthday⟩

/-- An item whose phones and birthday all pass re-validation. -/
def validItem (it : AddressBook.Item) : Bool :=
  it.phones.all phoneValid && birthdayOk it.birthday

/-! ## Helper lemmas -/

theorem phoneValid_iff (s : String) :
    phoneValid s = true ↔ (s.length = 10 ∧ ∀ c ∈ s.data, c.isDigit = true) := by
  obtain ⟨cs⟩ := s
  constructor
  · intro h
    simp only [phoneValid, pyIsdigit, Bool.and_eq_true, Bool.not_eq_true', beq_iff_eq,
      List.all_eq_true] at h
    exact ⟨h.2, h.1.2⟩
  · rintro ⟨hlen, hdig⟩
    simp only [phoneValid, pyIsdigit, Bool.and_eq_true, Bool.not_eq_true', beq_iff_eq,
      List.all_eq_true]
    refine ⟨⟨?_, hdig⟩, hlen⟩
    cases cs with
    | nil => simp [String.length] at hlen
    | cons a t => rfl

theorem editPhoneList_not_found (ps : List String) (oldP newP : String)
    (h : ∀ p ∈ ps, p ≠ oldP) :
    editPhoneList ps oldP newP = Except.error (PyError.notFoundError phoneNotFoundMsg) := by
  induction ps with
  | nil => rfl
  | cons p t ih =>
    have hp : (p == oldP) = false := by
      simpa using h p (List.mem_cons_self p t)
    simp [editPhoneList, hp, ih (fun q hq => h q (List.mem_cons_of_mem p hq))]

theorem mem_if_singleton (c : Bool) (x r : Record) :
    r ∈ (if c = true then [x] else []) ↔ (c = true ∧ r = x) := by
  cases c <;> simp

theorem mem_search (book : List Record) (q : String) (r : Record) :
    r ∈ AddressBook.search book q ↔
      (r ∈ book ∧
        (AddressBook.nameMatches r q = true ∨ AddressBook.phoneMatches r q = true)) := by
  induction book with
  | nil => simp [AddressBook.search]
  | cons x rest ih =>
    simp only [AddressBook.search, List.mem_append, List.mem_cons, ih, mem_if_singleton]
    by_cases hrx : r = x
    · subst hrx; simp; try tauto
    · simp [hrx]; try tauto

theorem search_count (book : List Record) (q : String) (h : NamesUnique book)
    (r : Record) (hr : r ∈ book) :
    List.count r (AddressBook.search book q) =
      ((if AddressBook.nameMatches r q = true then 1 else 0) +
       (if AddressBook.phoneMatches r q = true then 1 else 0)) := by
  induction book with
  | nil => cases hr
  | cons x rest ih =>
    have hpw := List.pairwise_cons.mp h
    rcases List.mem_cons.mp hr with hrx | hrt
    · subst hrx
      have hnot : r ∉ AddressBook.search rest q := by
        intro hmem
        exact (hpw.1 r ((mem_search rest q r).mp hmem).1) rfl
      simp only [AddressBook.search, List.count_append, List.count_eq_zero.mpr hnot]
      by_cases hn : AddressBook.nameMatches r q = true <;>
        by_cases hp : AddressBook.phoneMatches r q = true <;>
          simp [hn, hp]
    · have hne : r ≠ x := by
        intro he
        exact (hpw.1 r hrt) (he ▸ rfl)
      have hcx : ∀ c : Bool, List.count r (if c = true then [x] else []) = 0 := by
        intro c
        cases c <;> simp [List.count_eq_zero, hne]
      simp only [AddressBook.search, List.count_append, hcx, ih hpw.2 hrt]
      omega

theorem search_sublist (book : List Record) (q : String) :
    (AddressBook.search book q).Sublist (dupEach book) := by
  induction book with
  | nil => simp [AddressBook.search, dupEach]
  | cons x rest ih =>
    have he : AddressBook.search (x :: rest) q =
        ((if AddressBook.nameMatches x q = true then [x] else []) ++
         (if AddressBook.phoneMatches x q = true then [x] else [])) ++
          AddressBook.search rest q := rfl
    have hd : dupEach (x :: rest) = [x, x] ++ dupEach rest := rfl
    rw [he, hd]
    refine List.Sublist.append ?_ ih
    by_cases hn : AddressBook.nameMatches x q = true <;>
      by_cases hp : AddressBook.phoneMatches x q = true <;>
        simp [hn, hp]

/-! ## Claims -/

/-- **C2.** Phone validation is exact: `Phone(s)` (and assignment to
an existing `Phone`) succeeds iff `s` has exactly 10 characters, all
decimal digits; 9 digits, 10 characters with a letter, and 11 digits
all fail. -/
theorem phone_validation_exact :
    (∀ s : String, (Phone.mk? s).isOk = true ↔
      (s.length = 10 ∧ ∀ c ∈ s.data, c.isDigit = true)) ∧
    (∀ cur s : String, Phone.set cur s = (s, none) ↔
      (s.length = 10 ∧ ∀ c ∈ s.data, c.isDigit = true)) ∧
    (Phone.mk? "123456789").isOk = false ∧
    (Phone.mk? "12345678a9").isOk = false ∧
    (Phone.mk? "12345678901").isOk = false := by
  refine ⟨?_, ?_, by decide, by decide, by decide⟩
  · intro s
    rw [← phoneValid_iff]
    unfold Phone.mk?
    by_cases hv : phoneValid s = true <;> simp [hv, Except.isOk, Except.toBool]
  · intro cur s
    rw [← phoneValid_iff]
    unfold Phone.set
    constructor
    · intro h
      by_cases hv : phoneValid s = true
      · exact hv
      · rw [if_neg hv] at h
        simp at h
    · intro hv
      rw [if_pos hv]

/-- **C4.** On a record containing no phone equal to `oldP`,
`edit_phone oldP newP` fails with the not-found error (never the
validation error), whatever `newP` is; the two error kinds are
distinguishable. -/
theorem edit_phone_not_found_masks (r : Record) (oldP newP : String)
    (h : ∀ p ∈ r.phones, p ≠ oldP) :
    Record.edit_phone r oldP newP =
      (r, some (PyError.notFoundError phoneNotFoundMsg)) ∧
    (∀ ma mb : String, PyError.notFoundError ma ≠ PyError.validationError mb) := by
  refine ⟨?_, fun ma mb hc => PyError.noConfusion hc⟩
  simp [Record.edit_phone, editPhoneList_not_found r.phones oldP newP h]

theorem edit_phone_not_found_masks_witness :
    Record.edit_phone ⟨"Bob", ["1234567890"], none⟩ "0000000000" "123" =
      (⟨"Bob", ["1234567890"], none⟩, some (PyError.notFoundError phoneNotFoundMsg)) ∧
    (∀ ma mb : String, PyError.notFoundError ma ≠ PyError.validationError mb) :=
  edit_phone_not_found_masks ⟨"Bob", ["1234567890"], none⟩ "0000000000" "123" (by decide)

/-- **C7.** Validation failure is atomic: an invalid assignment to a
`Phone` or `Birthday` field raises and retains the prior value, and
`add_phone` with an invalid raw string raises and leaves the phone
list unchanged. -/
theorem validation_atomic (curP s : String) (curB : Option String) (t : String)
    (r : Record) (hs : phoneValid s = false) (ht : (parseDMY t).isSome = false) :
    Phone.set curP s = (curP, some (PyError.validationError phoneErrMsg)) ∧
    Birthday.set curB (some t) = (curB, some (PyError.validationError bdayErrMsg)) ∧
    Record.add_phone r s = (r, some (PyError.validationError phoneErrMsg)) := by
  refine ⟨?_, ?_, ?_⟩ <;>
    simp [Phone.set, Birthday.set, Record.add_phone, Phone.mk?, birthdayOk, hs, ht]

theorem validation_atomic_witness :
    Phone.set "0123456789" "123" =
      ("0123456789", some (PyError.validationError phoneErrMsg)) ∧
    Birthday.set (some "01.01.2000") (some "2000-01-01") =
      (some "01.01.2000", some (PyError.validationError bdayErrMsg)) ∧
    Record.add_phone ⟨"Bob", ["0123456789"], none⟩ "123" =
      (⟨"Bob", ["0123456789"], none⟩, some (PyError.validationError phoneErrMsg)) :=
  validation_atomic "0123456789" "123" (some "01.01.2000") "2000-01-01"
    ⟨"Bob", ["0123456789"], none⟩ (by decide) (by decide)

/-- **C9 counterexample.** Constructing a `Record` with an empty name
string succeeds: the `Name` field enforces nothing, so the empty name
is a representable state, contrary to the claim. -/
theorem record_empty_name_ok : Record.mk? "" none = Except.ok ⟨"", [], none⟩ := rfl

/-- **C9 (amended).** `Name` accepts arbitrary text with no
non-emptiness constraint: `Record` construction never inspects the
name, so any string — the empty string included — yields a live
record keyed by that text. -/
theorem record_name_unconstrained :
    ∀ name : String, Record.mk? name none = Except.ok ⟨name, [], none⟩ :=
  fun _ => rfl

/-- **C3 counterexample.** A record matching the query on both its
name (case-insensitively) and a phone value is returned twice by
`search`, not at most once. -/
theorem search_duplicate_cex :
    AddressBook.search [⟨"a0", ["0000000000"], none⟩] "0" =
      [⟨"a0", ["0000000000"], none⟩, ⟨"a0", ["0000000000"], none⟩] := by decide

/-- **C3 (amended).** `search` returns each qualifying record at most
twice — once for a case-insensitive name match and once more when any
phone value contains the query — in directory iteration order (the
output is a subsequence of the book with each record doubled), and a
record is included iff the query matches its name case-insensitively
or is a substring of one of its phones. -/
theorem search_shape (book : List Record) (q : String) (h : NamesUnique book) :
    (∀ r, r ∈ AddressBook.search book q ↔
      (r ∈ book ∧
        (AddressBook.nameMatches r q = true ∨ AddressBook.phoneMatches r q = true))) ∧
    (∀ r ∈ book, List.count r (AddressBook.search book q) =
      ((if AddressBook.nameMatches r q = true then 1 else 0) +
       (if AddressBook.phoneMatches r q = true then 1 else 0))) ∧
    (AddressBook.search book q).Sublist (dupEach book) :=
  ⟨fun r => mem_search book q r,
   fun r hr => search_count book q h r hr,
   search_sublist book q⟩

theorem search_shape_witness :
    (∀ r, r ∈ AddressBook.search [⟨"a0", ["0000000000"], none⟩] "0" ↔
      (r ∈ [(⟨"a0", ["0000000000"], none⟩ : Record)] ∧
        (AddressBook.nameMatches r "0" = true ∨ AddressBook.phoneMatches r "0" = true))) ∧
    (∀ r ∈ [(⟨"a0", ["0000000000"], none⟩ : Record)],
      List.count r (AddressBook.search [⟨"a0", ["0000000000"], none⟩] "0") =
      ((if AddressBook.nameMatches r "0" = true then 1 else 0) +
       (if AddressBook.phoneMatches r "0" = true then 1 else 0))) ∧
    (AddressBook.search [⟨"a0", ["0000000000"], none⟩] "0").Sublist
      (dupEach [⟨"a0", ["0000000000"], none⟩]) :=
  search_shape [⟨"a0", ["0000000000"], none⟩] "0" (by simp [NamesUnique])

/-! ## Directory lemmas -/

theorem find_eq_none (book : List Record) (n : String) (h : hasName book n = false) :
    AddressBook.find book n = none := by
  induction book with
  | nil => rfl
  | cons x t ih =>
    simp only [hasName, List.any_cons, Bool.or_eq_false_iff] at h
    simp [AddressBook.find, h.1, ih h.2]

theorem find_append (l1 l2 : List Record) (n : String) :
    AddressBook.find (l1 ++ l2) n =
      (match AddressBook.find l1 n with
       | some x => some x
       | none => AddressBook.find l2 n) := by
  induction l1 with
  | nil => rfl
  | cons x t ih =>
    by_cases hx : (x.name == n) = true <;> simp [AddressBook.find, hx, ih]

theorem replaceBy_name (r x : Record) : (AddressBook.replaceBy r x).name = x.name := by
  by_cases hx : (x.name == r.name) = true
  · have hx2 : x.name = r.name := by simpa using hx
    simp [AddressBook.replaceBy, hx, hx2]
  · simp [AddressBook.replaceBy, hx]

theorem find_map_replace (book : List Record) (r : Record)
    (hh : hasName book r.name = true) :
    AddressBook.find (book.map (AddressBook.replaceBy r)) r.name = some r := by
  induction book with
  | nil => cases hh
  | cons x t ih =>
    rw [List.map_cons]
    by_cases hx : (x.name == r.name) = true
    · have h1 : AddressBook.replaceBy r x = r := by simp [AddressBook.replaceBy, hx]
      simp [AddressBook.find, h1]
    · have ht : hasName t r.name = true := by
        simp only [hasName, List.any_cons, hx, Bool.false_or] at hh
        exact hh
      have h1 : AddressBook.replaceBy r x = x := by simp [AddressBook.replaceBy, hx]
      simp [AddressBook.find, h1, hx, ih ht]

theorem find_map_other (book : List Record) (r : Record) (n : String)
    (hn : n ≠ r.name) :
    AddressBook.find (book.map (AddressBook.replaceBy r)) n =
      AddressBook.find book n := by
  induction book with
  | nil => rfl
  | cons x t ih =>
    rw [List.map_cons]
    have hname := replaceBy_name r x
    by_cases hx : (x.name == n) = true
    · have hx2 : x.name = n := by simpa using hx
      have hxr : (x.name == r.name) = false := by
        simp [hx2]
        exact hn
      have h1 : AddressBook.replaceBy r x = x := by simp [AddressBook.replaceBy, hxr]
      simp [AddressBook.find, h1, hx]
    · have h2 : ((AddressBook.replaceBy r x).name == n) = false := by
        rw [hname]
        exact eq_false_of_ne_true hx
      have hx2 : (x.name == n) = false := eq_false_of_ne_true hx
      simp only [AddressBook.find, h2, hx2]
      simp only [Bool.false_eq_true, if_false]
      exact ih

/-- **C6.** `add_record` overwrites by name: afterwards the book still
has at most one record per name, lookup of the new record's name
yields exactly the new record (the prior one, phones and birthday
included, is gone), and every other name resolves as before;
`add_record` is a total function (it never fails). -/
theorem add_record_overwrite (book : List Record) (r : Record) (h : NamesUnique book) :
    NamesUnique (AddressBook.add_record book r) ∧
    AddressBook.find (AddressBook.add_record book r) r.name = some r ∧
    (∀ n, n ≠ r.name →
      AddressBook.find (AddressBook.add_record book r) n = AddressBook.find book n) := by
  by_cases hh : hasName book r.name = true
  · have he : AddressBook.add_record book r = book.map (AddressBook.replaceBy r) := by
      simp [AddressBook.add_record, hh]
    rw [he]
    refine ⟨?_, find_map_replace book r hh, fun n hn => find_map_other book r n hn⟩
    refine List.Pairwise.map _ ?_ h
    intro a b hab
    rw [replaceBy_name, replaceBy_name]
    exact hab
  · have hh2 : hasName book r.name = false := eq_false_of_ne_true hh
    have he : AddressBook.add_record book r = book ++ [r] := by
      simp [AddressBook.add_record, hh2]
    rw [he]
    have hnot : ∀ x ∈ book, x.name ≠ r.name := by
      intro x hx heq
      simp only [hasName, List.any_eq_false] at hh2
      exact hh2 x hx (by simp [heq])
    refine ⟨?_, ?_, ?_⟩
    · refine List.pairwise_append.mpr ⟨h, List.pairwise_singleton _ _, ?_⟩
      intro a ha b hb
      have : b = r := by simpa using hb
      subst this
      exact hnot a ha
    · rw [find_append, find_eq_none book r.name hh2]
      simp [AddressBook.find]
    · intro n hn
      rw [find_append]
      cases he2 : AddressBook.find book n with
      | some x => rfl
      | none =>
        have : (r.name == n) = false := by
          simp [beq_eq_false_iff_ne]
          exact fun hc => hn hc.symm
        simp [AddressBook.find, this]

theorem add_record_overwrite_witness :
    NamesUnique (AddressBook.add_record
      [⟨"Anna", ["0123456789"], some "01.02.2000"⟩] ⟨"Anna", ["9876543210"], none⟩) ∧
    AddressBook.find (AddressBook.add_record
      [⟨"Anna", ["0123456789"], some "01.02.2000"⟩] ⟨"Anna", ["9876543210"], none⟩)
      "Anna" = some ⟨"Anna", ["9876543210"], none⟩ ∧
    (∀ n, n ≠ "Anna" →
      AddressBook.find (AddressBook.add_record
        [⟨"Anna", ["0123456789"], some "01.02.2000"⟩] ⟨"Anna", ["9876543210"], none⟩) n =
      AddressBook.find [⟨"Anna", ["0123456789"], some "01.02.2000"⟩] n) :=
  add_record_overwrite [⟨"Anna", ["0123456789"], some "01.02.2000"⟩]
    ⟨"Anna", ["9876543210"], none⟩ (by simp [NamesUnique])

/-! ## Round-trip lemmas -/

theorem addPhones_ok (ps : List String) (h : ps.all phoneValid = true) :
    ∀ (name : String) (acc : List String) (b : Option String),
      AddressBook.addPhones ⟨name, acc, b⟩ ps = (⟨name, acc ++ ps, b⟩, none) := by
  induction ps with
  | nil => intro name acc b; simp [AddressBook.addPhones]
  | cons p t ih =>
    intro name acc b
    simp only [List.all_cons, Bool.and_eq_true] at h
    simp only [AddressBook.addPhones, Record.add_phone, Phone.mk?, h.1, if_true]
    rw [ih h.2 name (acc ++ [p]) b]
    simp

theorem loadLoop_cons_ok (book : List Record) (it : AddressBook.Item)
    (rest : List AddressBook.Item) (r0 r : Record)
    (h1 : Record.mk? it.name it.birthday = Except.ok r0)
    (h2 : AddressBook.addPhones r0 it.phones = (r, none)) :
    AddressBook.loadLoop book (it :: rest) =
      AddressBook.loadLoop (AddressBook.add_record book r) rest := by
  simp [AddressBook.loadLoop, h1, h2]

theorem loadLoop_save (book : List Record) :
    ∀ acc : List Record, (∀ r ∈ book, recordValid r = true) →
      (∀ r ∈ book, hasName acc r.name = false) → NamesUnique book →
      AddressBook.loadLoop acc (AddressBook.save book) = (acc ++ book, none) := by
  induction book with
  | nil => intro acc _ _ _; simp [AddressBook.save, AddressBook.loadLoop]
  | cons r rest ih =>
    intro acc hv hn hu
    have hrv := hv r (List.mem_cons_self r rest)
    simp only [recordValid, Bool.and_eq_true] at hrv
    have h1 : Record.mk? r.name r.birthday = Except.ok ⟨r.name, [], r.birthday⟩ := by
      simp [Record.mk?, Birthday.mk?, hrv.2]
    have h2 : AddressBook.addPhones ⟨r.name, [], r.birthday⟩ r.phones = (r, none) :=
      addPhones_ok r.phones hrv.1 r.name [] r.birthday
    have hpw := List.pairwise_cons.mp hu
    have hadd : AddressBook.add_record acc r = acc ++ [r] := by
      simp [AddressBook.add_record, hn r (List.mem_cons_self r rest)]
    have hsv : AddressBook.save (r :: rest) =
        ⟨r.name, r.birthday, r.phones⟩ :: AddressBook.save rest := rfl
    rw [hsv, loadLoop_cons_ok acc ⟨r.name, r.birthday, r.phones⟩ _ _ r h1 h2, hadd]
    have hrec : AddressBook.loadLoop (acc ++ [r]) (AddressBook.save rest) =
        ((acc ++ [r]) ++ rest, none) := by
      refine ih (acc ++ [r]) (fun x hx => hv x (List.mem_cons_of_mem r hx)) ?_ hpw.2
      intro x hx
      have hxa : hasName acc x.name = false := hn x (List.mem_cons_of_mem r hx)
      have hxr : (r.name == x.name) = false := by
        simp [beq_eq_false_iff_ne]
        exact hpw.1 x hx
      simp [hasName, List.any_append, List.any_cons] at hxa ⊢
      exact ⟨hxa, fun hc => (hpw.1 x hx) hc⟩
    rw [hrec]
    simp

/-- **C1.** Round-trip persistence: for a directory of valid records
(names unique, as the dict guarantees), `load` of `save`'s output
rebuilds exactly the same record list — same names in the same order,
each with an identical phone sequence and identical birthday state —
whatever the directory held before the load. -/
theorem roundtrip_load_save (book prior : List Record)
    (hv : ∀ r ∈ book, recordValid r = true) (hu : NamesUnique book) :
    AddressBook.load prior (AddressBook.save book) = (book, none) := by
  have := loadLoop_save book [] hv (fun r _ => rfl) hu
  simpa [AddressBook.load] using this

theorem roundtrip_load_save_witness :
    AddressBook.load [⟨"Old", ["1111111111"], none⟩]
      (AddressBook.save
        [⟨"Anna", ["0123456789", "0123456789"], some "01.02.2000"⟩, ⟨"Bob", [], none⟩]) =
      ([⟨"Anna", ["0123456789", "0123456789"], some "01.02.2000"⟩, ⟨"Bob", [], none⟩],
        none) :=
  roundtrip_load_save
    [⟨"Anna", ["0123456789", "0123456789"], some "01.02.2000"⟩, ⟨"Bob", [], none⟩]
    [⟨"Old", ["1111111111"], none⟩] (by decide) (by simp [NamesUnique])

/-! ## Load non-atomicity lemmas -/

theorem addPhones_bad (ps : List String) (h : ps.all phoneValid = false) :
    ∀ r : Record, (AddressBook.addPhones r ps).2 =
      some (PyError.validationError phoneErrMsg) := by
  induction ps with
  | nil => simp at h
  | cons p t ih =>
    intro r
    by_cases hp : phoneValid p = true
    · have ht : t.all phoneValid = false := by
        simp only [List.all_cons, hp, Bool.true_and] at h
        exact h
      simp only [AddressBook.addPhones, Record.add_phone, Phone.mk?, hp, if_true]
      exact ih ht _
    · have hp2 : phoneValid p = false := eq_false_of_ne_true hp
      simp [AddressBook.addPhones, Record.add_phone, Phone.mk?, hp2]

theorem loadLoop_goodItems (good : List AddressBook.Item) :
    ∀ (acc : List Record) (l2 : List AddressBook.Item),
      (∀ it ∈ good, validItem it = true) →
      AddressBook.loadLoop acc (good ++ l2) =
        AddressBook.loadLoop
          (good.foldl (fun b it => AddressBook.add_record b (recordOfItem it)) acc) l2 := by
  induction good with
  | nil => intro acc l2 _; rfl
  | cons it rest ih =>
    intro acc l2 hg
    have hvi := hg it (List.mem_cons_self it rest)
    simp only [validItem, Bool.and_eq_true] at hvi
    have h1 : Record.mk? it.name it.birthday = Except.ok ⟨it.name, [], it.birthday⟩ := by
      simp [Record.mk?, Birthday.mk?, hvi.2]
    have h2 : AddressBook.addPhones ⟨it.name, [], it.birthday⟩ it.phones =
        (recordOfItem it, none) :=
      addPhones_ok it.phones hvi.1 it.name [] it.birthday
    rw [List.cons_append, loadLoop_cons_ok acc it _ _ _ h1 h2,
      ih _ _ (fun x hx => hg x (List.mem_cons_of_mem it hx))]
    rfl

theorem loadLoop_bad (bad : AddressBook.Item) (hb : validItem bad = false) :
    ∀ (book : List Record) (rest : List AddressBook.Item),
      ∃ msg, AddressBook.loadLoop book (bad :: rest) =
        (book, some (PyError.validationError msg)) := by
  intro book rest
  by_cases hbd : birthdayOk bad.birthday = true
  · have hph : bad.phones.all phoneValid = false := by
      simp only [validItem, hbd, Bool.and_true] at hb
      exact hb
    refine ⟨phoneErrMsg, ?_⟩
    have h1 : Record.mk? bad.name bad.birthday = Except.ok ⟨bad.name, [], bad.birthday⟩ := by
      simp [Record.mk?, Birthday.mk?, hbd]
    have h2 := addPhones_bad bad.phones hph ⟨bad.name, [], bad.birthday⟩
    rcases he : AddressBook.addPhones ⟨bad.name, [], bad.birthday⟩ bad.phones with ⟨r2, e⟩
    rw [he] at h2
    simp only at h2
    subst h2
    simp [AddressBook.loadLoop, h1, he]
  · have hbd2 : birthdayOk bad.birthday = false := eq_false_of_ne_true hbd
    exact ⟨bdayErrMsg, by simp [AddressBook.loadLoop, Record.mk?, Birthday.mk?, hbd2]⟩

/-- **C10.** `load` is not atomic on bad content: on a well-formed
item list containing an item with an invalid phone or birthday, it
raises a validation error, but only after discarding the directory's
prior contents — the resulting book holds exactly the records rebuilt
from the items before the failing one, whatever the book held
before. -/
theorem load_discards_prior (prior : List Record) (good : List AddressBook.Item)
    (bad : AddressBook.Item) (rest : List AddressBook.Item)
    (hg : ∀ it ∈ good, validItem it = true) (hb : validItem bad = false) :
    ∃ msg, AddressBook.load prior (good ++ bad :: rest) =
      (good.foldl (fun b it => AddressBook.add_record b (recordOfItem it)) [],
       some (PyError.validationError msg)) := by
  obtain ⟨msg, hm⟩ := loadLoop_bad bad hb
    (good.foldl (fun b it => AddressBook.add_record b (recordOfItem it)) []) rest
  refine ⟨msg, ?_⟩
  show AddressBook.loadLoop [] (good ++ bad :: rest) = _
  rw [loadLoop_goodItems good [] (bad :: rest) hg, hm]

theorem load_discards_prior_witness :
    ∃ msg, AddressBook.load [⟨"Old", ["1111111111"], none⟩]
      ([⟨"Anna", none, ["0123456789"]⟩] ++ ⟨"Bob", none, ["123"]⟩ :: []) =
      ([⟨"Anna", none, ["0123456789"]⟩].foldl
        (fun b it => AddressBook.add_record b (recordOfItem it)) [],
       some (PyError.validationError msg)) :=
  load_discards_prior [⟨"Old", ["1111111111"], none⟩] [⟨"Anna", none, ["0123456789"]⟩]
    ⟨"Bob", none, ["123"]⟩ [] (by decide) (by decide)

/-! ## Date arithmetic lemmas -/

theorem leapN_cases (y : Nat) : leapN y = 0 ∨ leapN y = 1 := by
  unfold leapN; split <;> simp

theorem dbm_step (y ma mb : Nat) (h1 : 1 ≤ ma) (h2 : ma < mb) (h3 : mb ≤ 12) :
    daysBeforeMonth y ma + daysInMonth y ma ≤ daysBeforeMonth y mb := by
  have hl := leapN_cases y
  have h4 : ma ≤ 11 := by omega
  interval_cases ma <;> interval_cases mb <;>
    simp [daysBeforeMonth, daysInMonth] <;> omega

theorem dbm_max (y m d : Nat) (h1 : 1 ≤ m) (h2 : m ≤ 12)
    (hd : d ≤ daysInMonth y m) :
    daysBeforeMonth y m + d ≤ 365 + leapN y := by
  have hl := leapN_cases y
  interval_cases m <;> simp [daysBeforeMonth, daysInMonth] at hd ⊢ <;> omega

theorem dby_succ (y : Nat) (h : 1 ≤ y) :
    daysBeforeYear (y + 1) = daysBeforeYear y + 365 + leapN y := by
  unfold daysBeforeYear leapN isLeap
  simp only [Nat.add_sub_cancel]
  by_cases h4 : y % 4 = 0 <;> by_cases h100 : y % 100 = 0 <;>
    by_cases h400 : y % 400 = 0 <;> simp [h4, h100, h400] <;> omega

theorem dby_mono (a b : Nat) (h1 : 1 ≤ a) (h : a ≤ b) :
    daysBeforeYear a ≤ daysBeforeYear b := by
  induction h with
  | refl => exact Nat.le_refl _
  | step h2 ih =>
    have hs := dby_succ _ (Nat.le_trans h1 h2)
    simp only [Nat.succ_eq_add_one]
    omega

theorem date_valid_iff (d : Date) :
    d.valid = true ↔ (1 ≤ d.year ∧ d.year ≤ 9999 ∧ 1 ≤ d.month ∧ d.month ≤ 12 ∧
      1 ≤ d.day ∧ d.day ≤ daysInMonth d.year d.month) := by
  constructor
  · intro h
    simp [Date.valid] at h
    tauto
  · intro h
    simp [Date.valid]
    tauto

theorem date_lt_iff (a b : Date) :
    Date.lt a b = true ↔
      (a.year < b.year ∨ (a.year = b.year ∧ (a.month < b.month ∨
        (a.month = b.month ∧ a.day < b.day)))) := by
  simp [Date.lt]

theorem date_lt_irrefl (a : Date) : Date.lt a a = false := by
  simp [Date.lt]

theorem date_not_lt (a b : Date) (h : Date.lt b a = false) :
    a = b ∨ Date.lt a b = true := by
  have h2 : ¬ (Date.lt b a = true) := by simp [h]
  rw [date_lt_iff] at h2
  rw [date_lt_iff]
  have he : a = b ↔ (a.year = b.year ∧ a.month = b.month ∧ a.day = b.day) := by
    obtain ⟨ya, ma, da⟩ := a
    obtain ⟨yb, mb, db⟩ := b
    simp
  rw [he]
  omega

theorem toOrdinal_lt_of_lt (a b : Date) (ha : a.valid = true) (hb : b.valid = true)
    (hlt : Date.lt a b = true) : a.toOrdinal < b.toOrdinal := by
  obtain ⟨ha1, ha2, ha3, ha4, ha5, ha6⟩ := (date_valid_iff a).mp ha
  obtain ⟨hb1, hb2, hb3, hb4, hb5, hb6⟩ := (date_valid_iff b).mp hb
  rcases (date_lt_iff a b).mp hlt with hy | ⟨hy, hm | ⟨hm, hd⟩⟩
  · have e1 : daysBeforeMonth a.year a.month + a.day ≤ 365 + leapN a.year :=
      dbm_max a.year a.month a.day ha3 ha4 ha6
    have e2 : daysBeforeYear (a.year + 1) = daysBeforeYear a.year + 365 + leapN a.year :=
      dby_succ a.year ha1
    have e3 : daysBeforeYear (a.year + 1) ≤ daysBeforeYear b.year :=
      dby_mono (a.year + 1) b.year (by omega) (by omega)
    unfold Date.toOrdinal
    omega
  · have e1 : daysBeforeMonth a.year a.month + daysInMonth a.year a.month ≤
        daysBeforeMonth a.year b.month := dbm_step a.year a.month b.month ha3 hm hb4
    unfold Date.toOrdinal
    rw [hy] at e1 ha6 ⊢
    omega
  · unfold Date.toOrdinal
    rw [hy, hm]
    omega

/-! ## Reduction lemmas for `days_to_birthday` -/

theorem replaceYear_ok (d : Date) (y : Nat) (h1 : 1 ≤ y) (h2 : y ≤ 9999)
    (h3 : d.day ≤ daysInMonth y d.month) :
    d.replaceYear y = Except.ok ⟨y, d.month, d.day⟩ := by
  unfold Date.replaceYear
  rw [if_pos ⟨h1, h2, h3⟩]

theorem replaceYear_err (d : Date) (y : Nat)
    (h : ¬(1 ≤ y ∧ y ≤ 9999 ∧ d.day ≤ daysInMonth y d.month)) :
    d.replaceYear y = Except.error (PyError.dateError "day is out of range for month") := by
  unfold Date.replaceYear
  rw [if_neg h]

theorem days_to_birthday_err (s : String) (bd today : Date) (e : PyError)
    (hparse : parseDMY s = some bd)
    (hre : bd.replaceYear today.year = Except.error e) :
    days_to_birthday (some s) today = Except.error e := by
  simp [days_to_birthday, hparse, hre]

theorem days_to_birthday_noroll (s : String) (bd today b1 : Date)
    (hparse : parseDMY s = some bd)
    (hre : bd.replaceYear today.year = Except.ok b1)
    (hlt : Date.lt b1 today = false) :
    days_to_birthday (some s) today =
      Except.ok (some ((b1.toOrdinal : Int) - (today.toOrdinal : Int))) := by
  simp [days_to_birthday, hparse, hre, hlt]

theorem days_to_birthday_rollerr (s : String) (bd today b1 : Date) (e : PyError)
    (hparse : parseDMY s = some bd)
    (hre : bd.replaceYear today.year = Except.ok b1)
    (hlt : Date.lt b1 today = true)
    (hre2 : b1.replaceYear (today.year + 1) = Except.error e) :
    days_to_birthday (some s) today = Except.error e := by
  simp [days_to_birthday, hparse, hre, hlt, hre2]

theorem days_to_birthday_rollok (s : String) (bd today b1 b2 : Date)
    (hparse : parseDMY s = some bd)
    (hre : bd.replaceYear today.year = Except.ok b1)
    (hlt : Date.lt b1 today = true)
    (hre2 : b1.replaceYear (today.year + 1) = Except.ok b2) :
    days_to_birthday (some s) today =
      Except.ok (some ((b2.toOrdinal : Int) - (today.toOrdinal : Int))) := by
  simp [days_to_birthday, hparse, hre, hlt, hre2]

theorem parseDMY_valid (s : String) (d : Date) (h : parseDMY s = some d) :
    d.valid = true := by
  simp only [parseDMY] at h
  split at h
  · split at h
    · rename_i hc
      simp only [Bool.and_eq_true, Bool.not_eq_true', decide_eq_true_eq,
        List.all_eq_true] at hc
      injection h with h
      subst h
      rw [date_valid_iff]
      dsimp only
      refine ⟨?_, ?_, ?_, ?_, ?_, ?_⟩ <;> tauto
    · exact absurd h (by simp)
  · exact absurd h (by simp)

/-- **C8.** Leap-day failure: with a stored birthday of 29 February
and a reference date in a non-leap year, `days_to_birthday` raises
(the `date.replace(year=...)` construction of 29 February fails)
instead of returning a day count. -/
theorem leap_day_birthday_fails (s : String) (bd today : Date)
    (hparse : parseDMY s = some bd) (hm : bd.month = 2) (hd : bd.day = 29)
    (hnl : isLeap today.year = false) :
    days_to_birthday (some s) today =
      Except.error (PyError.dateError "day is out of range for month") := by
  have hdim : daysInMonth today.year 2 = 28 := by
    simp [daysInMonth, leapN, hnl]
  have hre : bd.replaceYear today.year =
      Except.error (PyError.dateError "day is out of range for month") := by
    refine replaceYear_err bd today.year ?_
    rintro ⟨h1, h2, h3⟩
    rw [hm, hd, hdim] at h3
    omega
  exact days_to_birthday_err s bd today _ hparse hre

theorem leap_day_birthday_fails_witness :
    days_to_birthday (some "29.02.2020") ⟨2021, 3, 1⟩ =
      Except.error (PyError.dateError "day is out of range for month") :=
  leap_day_birthday_fails "29.02.2020" ⟨2020, 2, 29⟩ ⟨2021, 3, 1⟩
    (by decide) rfl rfl (by decide)

/-- **C5.** Birthday distance boundary: whenever `days_to_birthday`
returns a day count `n` for a stored date and a (valid) reference
date `today`, `n` is the whole-day distance to the anniversary in
`today`'s year — or to next year's anniversary exactly when the
current-year anniversary is strictly before `today` — so `n` is never
negative, and an anniversary falling on `today` itself yields `0`,
not a roll to next year. -/
theorem days_to_birthday_boundary (s : String) (bd today : Date) (n : Int)
    (hparse : parseDMY s = some bd) (htoday : today.valid = true)
    (hok : days_to_birthday (some s) today = Except.ok (some n)) :
    n = ((specNextAnniversary bd today).toOrdinal : Int) - (today.toOrdinal : Int) ∧
    0 ≤ n ∧
    ((⟨today.year, bd.month, bd.day⟩ : Date) = today → n = 0) := by
  have hbdv := parseDMY_valid s bd hparse
  obtain ⟨hv1, hv2, hv3, hv4, hv5, hv6⟩ := (date_valid_iff bd).mp hbdv
  obtain ⟨ht1, ht2, ht3, ht4, ht5, ht6⟩ := (date_valid_iff today).mp htoday
  by_cases hdd : bd.day ≤ daysInMonth today.year bd.month
  · have hre1 : bd.replaceYear today.year =
        Except.ok ⟨today.year, bd.month, bd.day⟩ :=
      replaceYear_ok bd today.year ht1 ht2 hdd
    have ha1v : (⟨today.year, bd.month, bd.day⟩ : Date).valid = true := by
      rw [date_valid_iff]
      exact ⟨ht1, ht2, hv3, hv4, hv5, hdd⟩
    by_cases hlt : Date.lt ⟨today.year, bd.month, bd.day⟩ today = true
    · by_cases h9 : today.year + 1 ≤ 9999 ∧
          bd.day ≤ daysInMonth (today.year + 1) bd.month
      · have hre2 : Date.replaceYear ⟨today.year, bd.month, bd.day⟩ (today.year + 1) =
            Except.ok ⟨today.year + 1, bd.month, bd.day⟩ :=
          replaceYear_ok ⟨today.year, bd.month, bd.day⟩ (today.year + 1)
            (by omega) h9.1 h9.2
        rw [days_to_birthday_rollok s bd today ⟨today.year, bd.month, bd.day⟩
          ⟨today.year + 1, bd.month, bd.day⟩ hparse hre1 hlt hre2] at hok
        simp only [Except.ok.injEq, Option.some.injEq] at hok
        have hb2v : (⟨today.year + 1, bd.month, bd.day⟩ : Date).valid = true := by
          rw [date_valid_iff]
          exact ⟨Nat.le_add_left 1 today.year, h9.1, hv3, hv4, hv5, h9.2⟩
        have hlt2 : Date.lt today ⟨today.year + 1, bd.month, bd.day⟩ = true := by
          rw [date_lt_iff]
          exact Or.inl (Nat.lt_succ_self today.year)
        have hord := toOrdinal_lt_of_lt today ⟨today.year + 1, bd.month, bd.day⟩
          htoday hb2v hlt2
        refine ⟨?_, by omega, ?_⟩
        · simp only [specNextAnniversary, hlt, if_true]
          omega
        · intro he
          rw [he, date_lt_irrefl] at hlt
          cases hlt
      · have hre2 : Date.replaceYear ⟨today.year, bd.month, bd.day⟩ (today.year + 1) =
            Except.error (PyError.dateError "day is out of range for month") :=
          replaceYear_err ⟨today.year, bd.month, bd.day⟩ (today.year + 1)
            (fun hc => h9 ⟨hc.2.1, hc.2.2⟩)
        rw [days_to_birthday_rollerr s bd today ⟨today.year, bd.month, bd.day⟩ _
          hparse hre1 hlt hre2] at hok
        exact absurd hok (by simp)
    · have hltf : Date.lt ⟨today.year, bd.month, bd.day⟩ today = false :=
        eq_false_of_ne_true hlt
      rw [days_to_birthday_noroll s bd today ⟨today.year, bd.month, bd.day⟩
        hparse hre1 hltf] at hok
      simp only [Except.ok.injEq, Option.some.injEq] at hok
      have hord : today.toOrdinal ≤ (⟨today.year, bd.month, bd.day⟩ : Date).toOrdinal := by
        rcases date_not_lt today ⟨today.year, bd.month, bd.day⟩ hltf with he | hlt2
        · rw [he]
        · exact Nat.le_of_lt (toOrdinal_lt_of_lt today ⟨today.year, bd.month, bd.day⟩
            htoday ha1v hlt2)
      refine ⟨?_, by omega, ?_⟩
      · simp only [specNextAnniversary, hltf, Bool.false_eq_true, if_false]
        omega
      · intro he
        rw [he] at hok
        omega
  · have hre1 : bd.replaceYear today.year =
        Except.error (PyError.dateError "day is out of range for month") :=
      replaceYear_err bd today.year (fun hc => hdd hc.2.2)
    rw [days_to_birthday_err s bd today _ hparse hre1] at hok
    exact absurd hok (by simp)

theorem days_to_birthday_boundary_witness :
    (0 : Int) = ((specNextAnniversary ⟨2000, 6, 15⟩ ⟨2024, 6, 15⟩).toOrdinal : Int) -
      (((⟨2024, 6, 15⟩ : Date)).toOrdinal : Int) ∧
    (0 : Int) ≤ 0 ∧
    ((⟨2024, 6, 15⟩ : Date) = ⟨2024, 6, 15⟩ → (0 : Int) = 0) :=
  days_to_birthday_boundary "15.06.2000" ⟨2000, 6, 15⟩ ⟨2024, 6, 15⟩ 0
    (by decide) (by decide) rfl
